import Mathlib

/-!
Verification of the scaffolding CLI core (commands/add/utils.ts).

Documents, patterns and package names are modelled as lists of characters
(`Str`).  The JavaScript string operations used by the source are embedded
one-to-one: `String.prototype.includes` as `isInfixOfB`, `indexOf` /
`lastIndexOf` as `firstIdx` / `lastIdx` (with `Option Nat` in place of the
JavaScript sentinel `-1`), `slice` as `List.take` / `List.drop`, and
`String.prototype.replace` with a plain-string search value as
`replaceFirstL`, which rewrites only the first occurrence.
-/

/-- Strings are modelled as lists of characters. -/
abbrev Str : Type := List Char

/-- Characters of a Lean string literal. -/
def strL (s : String) : Str := s.data

/-- The newline character, written separately because the source splices
a bare newline between the inserted statement and the document tail. -/
def nl : Str := strL "\n"

/-- Model of `String.prototype.includes`: is `pat` a contiguous substring. -/
def isInfixOfB (pat : Str) : Str → Bool
  | [] => pat.isPrefixOf []
  | c :: rest => pat.isPrefixOf (c :: rest) || isInfixOfB pat rest

/-- Model of `String.prototype.indexOf` from position 0: index of the first
occurrence of `pat`, or `none` where JavaScript yields `-1`. -/
def firstIdx (pat : Str) : Str → Option Nat
  | [] => if pat.isPrefixOf [] then some 0 else none
  | c :: rest =>
    if pat.isPrefixOf (c :: rest) then some 0
    else (firstIdx pat rest).map (· + 1)

/-- Model of `String.prototype.lastIndexOf`: index of the last occurrence
of `pat`, or `none` where JavaScript yields `-1`. -/
def lastIdx (pat : Str) : Str → Option Nat
  | [] => if pat.isPrefixOf [] then some 0 else none
  | c :: rest =>
    match lastIdx pat rest with
    | some i => some (i + 1)
    | none => if pat.isPrefixOf (c :: rest) then some 0 else none

/-- Model of `String.prototype.indexOf(pat, start)` for `start ≥ 0`. -/
def idxFrom (pat s : Str) (start : Nat) : Option Nat :=
  (firstIdx pat (s.drop start)).map (· + start)

/-- Model of `String.prototype.replace` with a plain-string search value:
only the first occurrence of `pat` is replaced by `rep`; a document without
an occurrence is returned unchanged. -/
def replaceFirstL (pat rep : Str) : Str → Str
  | [] => if pat.isPrefixOf [] then rep else []
  | c :: rest =>
    if pat.isPrefixOf (c :: rest) then rep ++ (c :: rest).drop pat.length
    else c :: replaceFirstL pat rep rest

/-- Number of positions of `s` at which `pat` occurs as a substring. -/
def countOcc (pat : Str) : Str → Nat
  | [] => 0
  | c :: rest => (if pat.isPrefixOf (c :: rest) then 1 else 0) + countOcc pat rest

/-- `pat` occurs at no position strictly before `j` in `s`. -/
def noOccBefore (pat s : Str) (j : Nat) : Bool :=
  (List.range j).all fun i => !(pat.isPrefixOf (s.drop i))

/-- `j` is the only position of `s` at which `pat` may occur. -/
def onlyOccAt (pat s : Str) (j : Nat) : Bool :=
  (List.range s.length).all fun i => decide (i = j) || !(pat.isPrefixOf (s.drop i))

theorem noOccBefore_iff {pat s : Str} {j : Nat} :
    noOccBefore pat s j = true ↔ ∀ i, i < j → pat.isPrefixOf (s.drop i) = false := by
  simp [noOccBefore]

theorem onlyOccAt_iff {pat s : Str} {j : Nat} :
    onlyOccAt pat s j = true ↔
      ∀ i, i < s.length → i ≠ j → pat.isPrefixOf (s.drop i) = false := by
  simp only [onlyOccAt, List.all_eq_true, List.mem_range, Bool.or_eq_true,
    decide_eq_true_eq, Bool.not_eq_true']
  constructor
  · intro h i hi hne
    rcases h i hi with h1 | h1
    · exact absurd h1 hne
    · exact h1
  · intro h i hi
    by_cases hij : i = j
    · exact Or.inl hij
    · exact Or.inr (h i hi hij)

theorem isPrefixOf_append_self (p t : Str) : p.isPrefixOf (p ++ t) = true := by
  simp

/-- Replacing the first occurrence in `pat ++ v` rewrites the leading `pat`. -/
theorem replaceFirstL_self (pat rep v : Str) :
    replaceFirstL pat rep (pat ++ v) = rep ++ v := by
  cases pat with
  | nil =>
    cases v with
    | nil => simp [replaceFirstL]
    | cons c rest => simp [replaceFirstL, List.isPrefixOf]
  | cons a t =>
    show replaceFirstL (a :: t) rep (a :: (t ++ v)) = rep ++ v
    rw [replaceFirstL]
    rw [if_pos (show (a :: t).isPrefixOf (a :: (t ++ v)) = true from
      isPrefixOf_append_self (a :: t) v)]
    show rep ++ (t ++ v).drop t.length = rep ++ v
    rw [List.drop_left]

/-- If `pat` occurs nowhere in the first `u.length` positions, the rewrite of
`u ++ v` happens entirely inside `v`. -/
theorem replaceFirstL_append (pat rep : Str) :
    ∀ u v : Str, noOccBefore pat (u ++ v) u.length = true →
      replaceFirstL pat rep (u ++ v) = u ++ replaceFirstL pat rep v := by
  intro u
  induction u with
  | nil => intro v _; simp
  | cons c u' ih =>
    intro v h
    have h' := noOccBefore_iff.mp h
    have h0 : pat.isPrefixOf (c :: (u' ++ v)) = false := by
      have := h' 0 (Nat.succ_pos _)
      simpa using this
    show replaceFirstL pat rep (c :: (u' ++ v)) = c :: (u' ++ replaceFirstL pat rep v)
    rw [replaceFirstL, if_neg (by simp [h0])]
    have htail : noOccBefore pat (u' ++ v) u'.length = true := by
      refine noOccBefore_iff.mpr fun i hi => ?_
      have := h' (i + 1) (Nat.succ_lt_succ hi)
      simpa using this
    rw [ih v htail]

/-- Rewriting at an explicitly located first occurrence. -/
theorem replaceFirstL_at (pat rep u v : Str)
    (h : noOccBefore pat (u ++ (pat ++ v)) u.length = true) :
    replaceFirstL pat rep (u ++ (pat ++ v)) = u ++ (rep ++ v) := by
  rw [replaceFirstL_append pat rep u (pat ++ v) h, replaceFirstL_self]

theorem isInfixOfB_of_prefixAt (pat : Str) :
    ∀ (s : Str) (i : Nat), pat.isPrefixOf (s.drop i) = true → isInfixOfB pat s = true := by
  intro s
  induction s with
  | nil => intro i h; simpa [isInfixOfB] using h
  | cons c rest ih =>
    intro i h
    cases i with
    | zero =>
      simp only [List.drop] at h
      simp [isInfixOfB, h]
    | succ i' =>
      simp only [List.drop] at h
      simp [isInfixOfB, ih i' h]

theorem isInfixOfB_append_left (pat : Str) :
    ∀ u v : Str, isInfixOfB pat u = true → isInfixOfB pat (u ++ v) = true := by
  intro u
  induction u with
  | nil => intro v h; simp [isInfixOfB] at h; subst h; cases v <;> simp [isInfixOfB, List.isPrefixOf]
  | cons c rest ih =>
    intro v h
    simp only [isInfixOfB, Bool.or_eq_true] at h
    rcases h with h | h
    · have : pat <+: (c :: rest) := by simpa using h
      have : pat <+: (c :: rest) ++ v := this.trans (List.prefix_append _ _)
      show isInfixOfB pat (c :: (rest ++ v)) = true
      simp only [isInfixOfB, Bool.or_eq_true]
      exact Or.inl (by simpa using this)
    · show isInfixOfB pat (c :: (rest ++ v)) = true
      simp only [isInfixOfB, Bool.or_eq_true]
      exact Or.inr (ih v h)

theorem isInfixOfB_append_right (pat : Str) :
    ∀ u v : Str, isInfixOfB pat v = true → isInfixOfB pat (u ++ v) = true := by
  intro u
  induction u with
  | nil => intro v h; simpa using h
  | cons c rest ih =>
    intro v h
    show isInfixOfB pat (c :: (rest ++ v)) = true
    simp only [isInfixOfB, Bool.or_eq_true]
    exact Or.inr (ih v h)

theorem countOcc_eq_zero (pat : Str) :
    ∀ s : Str, (∀ i, i < s.length → pat.isPrefixOf (s.drop i) = false) →
      countOcc pat s = 0 := by
  intro s
  induction s with
  | nil => intro _; rfl
  | cons c rest ih =>
    intro h
    have h0 : pat.isPrefixOf (c :: rest) = false := by
      have := h 0 (Nat.succ_pos _)
      simpa using this
    rw [countOcc, if_neg (by simp [h0])]
    have := ih fun i hi => by
      have := h (i + 1) (Nat.succ_lt_succ hi)
      simpa using this
    omega

theorem countOcc_eq_one (pat : Str) (hne : pat ≠ []) :
    ∀ (s : Str) (j : Nat), pat.isPrefixOf (s.drop j) = true →
      (∀ i, i < s.length → i ≠ j → pat.isPrefixOf (s.drop i) = false) →
      countOcc pat s = 1 := by
  intro s
  induction s with
  | nil =>
    intro j hj _
    exfalso
    have : pat <+: ([] : Str) := by simpa using hj
    exact hne (List.prefix_nil.mp this)
  | cons c rest ih =>
    intro j hj hother
    cases j with
    | zero =>
      simp only [List.drop] at hj
      rw [countOcc, if_pos (by simp [hj])]
      have hz : countOcc pat rest = 0 := by
        refine countOcc_eq_zero pat rest fun i hi => ?_
        have := hother (i + 1) (Nat.succ_lt_succ hi) (Nat.succ_ne_zero i)
        simpa using this
      omega
    | succ j' =>
      simp only [List.drop] at hj
      have h0 : pat.isPrefixOf (c :: rest) = false := by
        have := hother 0 (Nat.succ_pos _) (by omega)
        simpa using this
      rw [countOcc, if_neg (by simp [h0])]
      have := ih j' hj fun i hi hne' => by
        have := hother (i + 1) (Nat.succ_lt_succ hi) (by omega)
        simpa using this
      omega

/-- A string of the shape `x ++ pat ++ y` whose only candidate position is the
explicit one contains `pat` exactly once. -/
theorem countOcc_once (pat x y : Str) (hne : pat ≠ [])
    (h : onlyOccAt pat (x ++ (pat ++ y)) x.length = true) :
    countOcc pat (x ++ (pat ++ y)) = 1 := by
  refine countOcc_eq_one pat hne (x ++ (pat ++ y)) x.length ?_ ?_
  · rw [List.drop_left]
    exact isPrefixOf_append_self pat y
  · exact onlyOccAt_iff.mp h

/-!
Layout patcher (`addContextProviderToLayout`, utils.ts lines 47-142).

The target document is the text of `app/layout.tsx`.  Collaborators outside
this file (`readConfigFile`, `getFilePaths`, `formatFilePath`) only supply
the configured alias and the formatted component paths that are interpolated
into the candidate statements; they are gathered in `Env`.  The function
returns `none` for the early return on line 107 (no call to `replaceFile`,
the on-disk file is untouched) and `some newLayoutContent` for the final
`replaceFile(path, newLayoutContent)` on line 141.
-/

/-- The closed set of provider variants accepted by the patcher. -/
inductive Provider where
  | NextAuthProvider
  | TrpcProvider
  | ShadcnToast
  | ClerkProvider
  | Navbar
  | ThemeProvider
deriving DecidableEq

/-- External configuration consumed by the patcher: the path alias from
`readConfigFile` and the already-formatted component paths produced by
`formatFilePath`/`getFilePaths`. -/
structure Env where
  aliasStr : Str
  nextAuthProviderPath : Str
  trpcProviderPath : Str
  navbarPath : Str
  sidebarPath : Str

/-- The candidate statement built by the `switch (provider)` on lines 71-102,
one template literal per variant. -/
def importStatement (env : Env) : Provider → Str
  | .NextAuthProvider =>
    strL "import NextAuthProvider from \"" ++ (env.nextAuthProviderPath ++ strL "\";")
  | .TrpcProvider =>
    strL "import TrpcProvider from \"" ++
      (env.trpcProviderPath ++ strL "\";\nimport { cookies } from \"next/headers\";")
  | .ShadcnToast =>
    strL "import { Toaster } from \"" ++ (env.aliasStr ++ strL "/components/ui/toaster\";")
  | .ClerkProvider => strL "import { ClerkProvider } from \"@clerk/nextjs\";"
  | .Navbar =>
    strL "import Navbar from \"" ++
      (env.navbarPath ++
        (strL "\";\nimport Sidebar from \"" ++ (env.sidebarPath ++ strL "\";")))
  | .ThemeProvider =>
    strL "import { ThemeProvider } from \"" ++ (env.aliasStr ++ strL "/components/ThemeProvider\";")

/-- The bare children placeholder anchor. -/
def anchor : Str := strL "{children}"

/-- The multi-element navigation block (lines 114, 121 and 136 use the same
literal). -/
def navBlock : Str :=
  strL "<div className=\"flex\">\n<Sidebar />\n<main className=\"flex-1 md:p-8 pt-2 p-8\">\n<Navbar />\n{children}\n</main>\n</div>"

/-- Line 62: `fileContent.lastIndexOf("import")`. -/
def importInsertionPoint (s : Str) : Option Nat := lastIdx (strL "import") s

/-- Lines 63-64: `fileContent.indexOf("\n", importInsertionPoint) + 1`.
JavaScript clamps the `-1` produced by a missing occurrence to position 0,
and the `+ 1` turns a missing newline (`-1`) into 0. -/
def nextLineAfterLastImport (s : Str) : Nat :=
  match idxFrom nl s ((importInsertionPoint s).getD 0) with
  | some j => j + 1
  | none => 0

/-- Line 65: `fileContent.slice(0, nextLineAfterLastImport)`. -/
def beforeImport (s : Str) : Str := s.take (nextLineAfterLastImport s)

/-- Line 66: `fileContent.slice(nextLineAfterLastImport)`. -/
def afterImport (s : Str) : Str := s.drop (nextLineAfterLastImport s)

/-- Line 111: `fileContent.includes("<Navbar />")`. -/
def navbarExists (s : Str) : Bool := isInfixOfB (strL "<Navbar />") s

/-- Lines 112-114. -/
def rootChildrenText (s : Str) : Str := if navbarExists s then navBlock else anchor

/-- Lines 134-136, computed from the same original document text. -/
def searchValue (s : Str) : Str := if navbarExists s then navBlock else anchor

/-- Opening tag of the wrapper element a provider splices around the anchor
(the text between the leading `\n<` and the closing `>` of the template
literals on lines 124, 127 and 130). -/
def wrapOpen : Provider → Str
  | .NextAuthProvider => strL "<NextAuthProvider>"
  | .TrpcProvider => strL "<TrpcProvider cookies={cookies().toString()}>"
  | .ThemeProvider =>
    strL "<ThemeProvider attribute=\"class\" defaultTheme=\"system\" enableSystem disableTransitionOnChange>"
  | .ClerkProvider => strL "<ClerkProvider>"
  | .ShadcnToast => []
  | .Navbar => []

/-- Closing tag of the wrapper element. -/
def wrapClose : Provider → Str
  | .NextAuthProvider => strL "</NextAuthProvider>"
  | .TrpcProvider => strL "</TrpcProvider>"
  | .ThemeProvider => strL "</ThemeProvider>"
  | .ClerkProvider => strL "</ClerkProvider>"
  | .ShadcnToast => []
  | .Navbar => []

/-- The variants whose replacement wraps the anchor in an element pair
(every variant except the toast sibling and the navigation block itself). -/
def isWrapping : Provider → Bool
  | .NextAuthProvider => true
  | .TrpcProvider => true
  | .ThemeProvider => true
  | .ClerkProvider => true
  | .ShadcnToast => false
  | .Navbar => false

/-- Lines 115-132: the replacement body.  The template literals of the
wrapping variants are decomposed as newline, opening tag, anchor text,
closing tag, newline. -/
def replacementText (p : Provider) (rct : Str) : Str :=
  match p with
  | .ShadcnToast => rct ++ strL "\n<Toaster />\n"
  | .Navbar => navBlock
  | _ => nl ++ (wrapOpen p ++ (rct ++ (wrapClose p ++ nl)))

theorem replacementText_wrap (p : Provider) (h : isWrapping p = true) (rct : Str) :
    replacementText p rct = nl ++ (wrapOpen p ++ (rct ++ (wrapClose p ++ nl))) := by
  cases p <;> first
    | rfl
    | exact absurd h (by simp [isWrapping])

/-- Lines 47-142.  `none` models the early return on line 107 (the document
already contains the candidate statement; `replaceFile` is never reached),
`some c` models `replaceFile(path, c)` on line 141 with
`c = modifiedImportContent.replace(searchValue, replacementText)`. -/
def addContextProviderToLayout (env : Env) (p : Provider) (fileContent : Str) : Option Str :=
  if isInfixOfB (importStatement env p) fileContent then none
  else
    some (replaceFirstL (searchValue fileContent)
      (replacementText p (rootChildrenText fileContent))
      (beforeImport fileContent ++ (importStatement env p ++ (nl ++ afterImport fileContent))))

/-- The document text on disk after one invocation: unchanged on the early
return, otherwise the written content. -/
def applyLayout (env : Env) (p : Provider) (doc : Str) : Str :=
  (addContextProviderToLayout env p doc).getD doc

/-- A concrete configuration used by the witnesses: alias `@` and the
standard formatted component paths. -/
def env0 : Env :=
  { aliasStr := strL "@"
    nextAuthProviderPath := strL "@/lib/auth/Provider"
    trpcProviderPath := strL "@/lib/trpc/Provider"
    navbarPath := strL "@/components/Navbar"
    sidebarPath := strL "@/components/Sidebar" }

/-- Claim C1: for every layout document (whose search anchor does not occur
inside the import block extended with the candidate statement), applying the
same provider variant twice yields a document identical to applying it once:
the second application finds the exact candidate statement text already in
the document and returns without modifying it. -/
theorem addContextProviderToLayout_idempotent (env : Env) (p : Provider) (doc : Str)
    (h : noOccBefore (searchValue doc)
      ((beforeImport doc ++ (importStatement env p ++ nl)) ++ afterImport doc)
      (beforeImport doc ++ (importStatement env p ++ nl)).length = true) :
    applyLayout env p (applyLayout env p doc) = applyLayout env p doc := by
  cases hb : isInfixOfB (importStatement env p) doc with
  | true =>
    have h1 : applyLayout env p doc = doc := by
      simp [applyLayout, addContextProviderToLayout, hb]
    rw [h1]
    exact h1
  | false =>
    have e1 : addContextProviderToLayout env p doc
        = some ((beforeImport doc ++ (importStatement env p ++ nl)) ++
            replaceFirstL (searchValue doc) (replacementText p (rootChildrenText doc))
              (afterImport doc)) := by
      rw [addContextProviderToLayout, if_neg (by simp [hb])]
      congr 1
      have e : beforeImport doc ++ (importStatement env p ++ (nl ++ afterImport doc))
          = (beforeImport doc ++ (importStatement env p ++ nl)) ++ afterImport doc := by
        simp [List.append_assoc]
      rw [e]
      exact replaceFirstL_append _ _ _ _ h
    have h2 : applyLayout env p doc
        = (beforeImport doc ++ (importStatement env p ++ nl)) ++
            replaceFirstL (searchValue doc) (replacementText p (rootChildrenText doc))
              (afterImport doc) := by
      simp [applyLayout, e1]
    have hin : isInfixOfB (importStatement env p) (applyLayout env p doc) = true := by
      rw [h2]
      apply isInfixOfB_append_left
      apply isInfixOfB_of_prefixAt _ _ (beforeImport doc).length
      rw [List.drop_left]
      exact isPrefixOf_append_self _ _
    have hnone : addContextProviderToLayout env p (applyLayout env p doc) = none := by
      rw [addContextProviderToLayout, if_pos hin]
    calc applyLayout env p (applyLayout env p doc)
        = (addContextProviderToLayout env p (applyLayout env p doc)).getD
            (applyLayout env p doc) := rfl
      _ = (none : Option Str).getD (applyLayout env p doc) := by rw [hnone]
      _ = applyLayout env p doc := rfl

/-- A plain layout document: one import line, then markup around the bare
children placeholder. -/
def docIdem : Str := strL "import React from \"react\";\n<html>{children}</html>"

/-- Witness for C1 at a concrete document and the Clerk variant. -/
theorem addContextProviderToLayout_idempotent_witness :
    noOccBefore (searchValue docIdem)
      ((beforeImport docIdem ++ (importStatement env0 .ClerkProvider ++ nl)) ++
        afterImport docIdem)
      (beforeImport docIdem ++ (importStatement env0 .ClerkProvider ++ nl)).length = true
    ∧ applyLayout env0 .ClerkProvider (applyLayout env0 .ClerkProvider docIdem)
        = applyLayout env0 .ClerkProvider docIdem :=
  ⟨by decide, addContextProviderToLayout_idempotent env0 .ClerkProvider docIdem (by decide)⟩

/-- Claim C10: when the document already contains the exact candidate
statement text, the patcher takes the early return on line 107: the result is
`none`, i.e. `replaceFile` is never invoked and the file on disk is left
completely unchanged. -/
theorem addContextProviderToLayout_noWrite (env : Env) (p : Provider) (doc : Str)
    (h : isInfixOfB (importStatement env p) doc = true) :
    addContextProviderToLayout env p doc = none := by
  rw [addContextProviderToLayout, if_pos h]

/-- A document that already carries the Clerk import line. -/
def docHasImport : Str :=
  strL "import { ClerkProvider } from \"@clerk/nextjs\";\n<html>{children}</html>"

/-- Witness for C10 at a concrete document. -/
theorem addContextProviderToLayout_noWrite_witness :
    isInfixOfB (importStatement env0 .ClerkProvider) docHasImport = true
    ∧ addContextProviderToLayout env0 .ClerkProvider docHasImport = none :=
  ⟨by decide, addContextProviderToLayout_noWrite env0 .ClerkProvider docHasImport (by decide)⟩

/-- A document with an import block but no children placeholder anchor. -/
def docNoAnchor : Str := strL "import React from \"react\";\n<html><body>NoAnchor</body></html>"

/-- Claim C4 (divergence witness): on a document lacking the expected anchor
the source raises nothing: `String.prototype.replace` finds no occurrence and
returns its input, so the patcher silently writes the document back with the
statement inserted and the body unmodified, instead of raising
`PatchAnchorNotFoundError` as the specification requires. -/
theorem anchor_missing_writes_unchanged_body :
    addContextProviderToLayout env0 .ClerkProvider docNoAnchor
      = some (strL "import React from \"react\";\nimport { ClerkProvider } from \"@clerk/nextjs\";\n<html><body>NoAnchor</body></html>") := by
  decide

/-- A document with zero import statements. -/
def docNoImports : Str := strL "export default Page\n<html>{children}</html>"

/-- Claim C5 (divergence witness): on a document with zero import statements
the source raises nothing: `lastIndexOf` yields `-1`, `indexOf("\n", -1)`
clamps the start to position 0, and the candidate statement is spliced after
the first line of the document, instead of failing with
`MalformedTargetFileError` as the specification requires. -/
theorem zero_imports_inserts_after_first_line :
    addContextProviderToLayout env0 .ClerkProvider docNoImports
      = some (strL "export default Page\nimport { ClerkProvider } from \"@clerk/nextjs\";\n<html>\n<ClerkProvider>{children}</ClerkProvider>\n</html>") := by
  decide

theorem strL_append_ne_nil (s : String) (t : Str) (hs : strL s ≠ []) : strL s ++ t ≠ [] := by
  intro h
  rcases List.append_eq_nil.mp h with ⟨h1, _⟩
  exact hs h1

theorem importStatement_ne_nil (env : Env) (p : Provider) : importStatement env p ≠ [] := by
  cases p
  case NextAuthProvider => exact strL_append_ne_nil _ _ (by decide)
  case TrpcProvider => exact strL_append_ne_nil _ _ (by decide)
  case ShadcnToast => exact strL_append_ne_nil _ _ (by decide)
  case ClerkProvider =>
    exact (by decide : strL "import { ClerkProvider } from \"@clerk/nextjs\";" ≠ [])
  case Navbar => exact strL_append_ne_nil _ _ (by decide)
  case ThemeProvider => exact strL_append_ne_nil _ _ (by decide)

/-- A layout document split into its import block `IB`, the markup `P` before
the bare children anchor, and the tail `S`. -/
def docOf (IB P S : Str) : Str := IB ++ (P ++ (anchor ++ S))

/-- The document after one wrapping application: statement inserted at the
end of the import block, anchor wrapped. -/
def doc1Of (env : Env) (A : Provider) (IB P S : Str) : Str :=
  IB ++ (importStatement env A ++ (nl ++ (P ++ (replacementText A anchor ++ S))))

/-- The document after a second wrapping application: both statements
inserted, and the second wrapper is the innermost element around the anchor,
inside the first wrapper. -/
def doc2Of (env : Env) (A B : Provider) (IB P S : Str) : Str :=
  IB ++ (importStatement env A ++ (nl ++ (importStatement env B ++
    (nl ++ (P ++ (replacementText A (replacementText B anchor) ++ S))))))

/-- Claim C2: on a layout document with the bare children anchor and no
navigation marker, applying wrapping provider A and then wrapping provider B
produces the body `wrapA (wrapB anchor)` — the wrapper applied second is the
innermost element around the original anchor, so nesting order matches
application order — and each candidate statement occurs exactly once in the
result.  The side conditions locate the anchor and the statements at their
expected unique positions. -/
theorem addContextProviderToLayout_composes (env : Env) (A B : Provider) (IB P S : Str)
    (hA : isWrapping A = true) (hB : isWrapping B = true)
    (h_nav0 : navbarExists (docOf IB P S) = false)
    (h_nav1 : navbarExists (doc1Of env A IB P S) = false)
    (h_split0 : nextLineAfterLastImport (docOf IB P S) = IB.length)
    (h_split1 : nextLineAfterLastImport (doc1Of env A IB P S)
      = (IB ++ (importStatement env A ++ nl)).length)
    (h_imp0 : isInfixOfB (importStatement env A) (docOf IB P S) = false)
    (h_imp1 : isInfixOfB (importStatement env B) (doc1Of env A IB P S) = false)
    (h_first0 : noOccBefore anchor
      ((IB ++ (importStatement env A ++ (nl ++ P))) ++ (anchor ++ S))
      (IB ++ (importStatement env A ++ (nl ++ P))).length = true)
    (h_first1 : noOccBefore anchor
      ((IB ++ (importStatement env A ++ (nl ++ (importStatement env B ++
          (nl ++ (P ++ (nl ++ wrapOpen A))))))) ++
        (anchor ++ (wrapClose A ++ (nl ++ S))))
      (IB ++ (importStatement env A ++ (nl ++ (importStatement env B ++
        (nl ++ (P ++ (nl ++ wrapOpen A))))))).length = true)
    (h_onceA : onlyOccAt (importStatement env A) (doc2Of env A B IB P S) IB.length = true)
    (h_onceB : onlyOccAt (importStatement env B) (doc2Of env A B IB P S)
      (IB ++ (importStatement env A ++ nl)).length = true) :
    addContextProviderToLayout env A (docOf IB P S) = some (doc1Of env A IB P S)
    ∧ addContextProviderToLayout env B (doc1Of env A IB P S) = some (doc2Of env A B IB P S)
    ∧ countOcc (importStatement env A) (doc2Of env A B IB P S) = 1
    ∧ countOcc (importStatement env B) (doc2Of env A B IB P S) = 1 := by
  have hsv0 : searchValue (docOf IB P S) = anchor := by simp [searchValue, h_nav0]
  have hrct0 : rootChildrenText (docOf IB P S) = anchor := by simp [rootChildrenText, h_nav0]
  have hbi0 : beforeImport (docOf IB P S) = IB := by
    rw [beforeImport, h_split0, docOf]
    exact List.take_left ..
  have hai0 : afterImport (docOf IB P S) = P ++ (anchor ++ S) := by
    rw [afterImport, h_split0, docOf]
    exact List.drop_left ..
  refine ⟨?_, ?_, ?_, ?_⟩
  · rw [addContextProviderToLayout, if_neg (by simp [h_imp0])]
    congr 1
    rw [hsv0, hrct0, hbi0, hai0]
    have e : IB ++ (importStatement env A ++ (nl ++ (P ++ (anchor ++ S))))
        = (IB ++ (importStatement env A ++ (nl ++ P))) ++ (anchor ++ S) := by
      simp [List.append_assoc]
    rw [e, replaceFirstL_at _ _ _ _ h_first0]
    simp [doc1Of, List.append_assoc]
  · rw [addContextProviderToLayout, if_neg (by simp [h_imp1])]
    congr 1
    have hsv1 : searchValue (doc1Of env A IB P S) = anchor := by simp [searchValue, h_nav1]
    have hrct1 : rootChildrenText (doc1Of env A IB P S) = anchor := by
      simp [rootChildrenText, h_nav1]
    have e1 : doc1Of env A IB P S
        = (IB ++ (importStatement env A ++ nl)) ++ (P ++ (replacementText A anchor ++ S)) := by
      simp [doc1Of, List.append_assoc]
    have hbi1 : beforeImport (doc1Of env A IB P S) = IB ++ (importStatement env A ++ nl) := by
      rw [beforeImport, h_split1, e1]
      exact List.take_left ..
    have hai1 : afterImport (doc1Of env A IB P S) = P ++ (replacementText A anchor ++ S) := by
      rw [afterImport, h_split1, e1]
      exact List.drop_left ..
    rw [hsv1, hrct1, hbi1, hai1, replacementText_wrap A hA]
    have e2 : (IB ++ (importStatement env A ++ nl)) ++ (importStatement env B ++
          (nl ++ (P ++ ((nl ++ (wrapOpen A ++ (anchor ++ (wrapClose A ++ nl)))) ++ S))))
        = (IB ++ (importStatement env A ++ (nl ++ (importStatement env B ++
            (nl ++ (P ++ (nl ++ wrapOpen A))))))) ++
          (anchor ++ (wrapClose A ++ (nl ++ S))) := by
      simp [List.append_assoc]
    rw [e2, replaceFirstL_at _ _ _ _ h_first1]
    simp [doc2Of, replacementText_wrap A hA, replacementText_wrap B hB, List.append_assoc]
  · have h := h_onceA
    rw [doc2Of] at h ⊢
    exact countOcc_once _ _ _ (importStatement_ne_nil env A) h
  · have h := h_onceB
    have e4 : doc2Of env A B IB P S
        = (IB ++ (importStatement env A ++ nl)) ++ (importStatement env B ++
            (nl ++ (P ++ (replacementText A (replacementText B anchor) ++ S)))) := by
      simp [doc2Of, List.append_assoc]
    rw [e4] at h ⊢
    exact countOcc_once _ _ _ (importStatement_ne_nil env B) h

/-- Concrete import block used by the composition witnesses. -/
def c2IB : Str := strL "import React from \"react\";\n"

/-- Concrete markup before the anchor. -/
def c2P : Str := strL "<html><body>"

/-- Concrete markup after the anchor. -/
def c2S : Str := strL "</body></html>"

set_option maxRecDepth 40000 in
/-- Witness for C2 at a concrete document, with A the NextAuth wrapper and
B the Clerk wrapper. -/
theorem addContextProviderToLayout_composes_witness :
    isWrapping Provider.NextAuthProvider = true
    ∧ isWrapping Provider.ClerkProvider = true
    ∧ navbarExists (docOf c2IB c2P c2S) = false
    ∧ navbarExists (doc1Of env0 .NextAuthProvider c2IB c2P c2S) = false
    ∧ nextLineAfterLastImport (docOf c2IB c2P c2S) = c2IB.length
    ∧ nextLineAfterLastImport (doc1Of env0 .NextAuthProvider c2IB c2P c2S)
        = (c2IB ++ (importStatement env0 .NextAuthProvider ++ nl)).length
    ∧ isInfixOfB (importStatement env0 .NextAuthProvider) (docOf c2IB c2P c2S) = false
    ∧ isInfixOfB (importStatement env0 .ClerkProvider)
        (doc1Of env0 .NextAuthProvider c2IB c2P c2S) = false
    ∧ noOccBefore anchor
        ((c2IB ++ (importStatement env0 .NextAuthProvider ++ (nl ++ c2P))) ++ (anchor ++ c2S))
        (c2IB ++ (importStatement env0 .NextAuthProvider ++ (nl ++ c2P))).length = true
    ∧ noOccBefore anchor
        ((c2IB ++ (importStatement env0 .NextAuthProvider ++ (nl ++
            (importStatement env0 .ClerkProvider ++
              (nl ++ (c2P ++ (nl ++ wrapOpen .NextAuthProvider))))))) ++
          (anchor ++ (wrapClose .NextAuthProvider ++ (nl ++ c2S))))
        (c2IB ++ (importStatement env0 .NextAuthProvider ++ (nl ++
          (importStatement env0 .ClerkProvider ++
            (nl ++ (c2P ++ (nl ++ wrapOpen .NextAuthProvider))))))).length = true
    ∧ onlyOccAt (importStatement env0 .NextAuthProvider)
        (doc2Of env0 .NextAuthProvider .ClerkProvider c2IB c2P c2S) c2IB.length = true
    ∧ onlyOccAt (importStatement env0 .ClerkProvider)
        (doc2Of env0 .NextAuthProvider .ClerkProvider c2IB c2P c2S)
        (c2IB ++ (importStatement env0 .NextAuthProvider ++ nl)).length = true
    ∧ (addContextProviderToLayout env0 .NextAuthProvider (docOf c2IB c2P c2S)
          = some (doc1Of env0 .NextAuthProvider c2IB c2P c2S)
        ∧ addContextProviderToLayout env0 .ClerkProvider
            (doc1Of env0 .NextAuthProvider c2IB c2P c2S)
          = some (doc2Of env0 .NextAuthProvider .ClerkProvider c2IB c2P c2S)
        ∧ countOcc (importStatement env0 .NextAuthProvider)
            (doc2Of env0 .NextAuthProvider .ClerkProvider c2IB c2P c2S) = 1
        ∧ countOcc (importStatement env0 .ClerkProvider)
            (doc2Of env0 .NextAuthProvider .ClerkProvider c2IB c2P c2S) = 1) :=
  ⟨by decide, by decide, by decide, by decide, by decide, by decide, by decide, by decide,
    by decide, by decide, by decide, by decide,
    addContextProviderToLayout_composes env0 .NextAuthProvider .ClerkProvider c2IB c2P c2S
      (by decide) (by decide) (by decide) (by decide) (by decide) (by decide) (by decide)
      (by decide) (by decide) (by decide) (by decide) (by decide)⟩

/-- The document after applying the navigation provider: its two-line
statement inserted, the bare anchor replaced by the navigation block. -/
def doc1NavOf (env : Env) (IB P S : Str) : Str :=
  IB ++ (importStatement env .Navbar ++ (nl ++ (P ++ (navBlock ++ S))))

/-- The document after a subsequent wrapping application: the wrapper
encloses the whole navigation block. -/
def doc2NavOf (env : Env) (q : Provider) (IB P S : Str) : Str :=
  IB ++ (importStatement env .Navbar ++ (nl ++ (importStatement env q ++
    (nl ++ (P ++ (replacementText q navBlock ++ S))))))

/-- Claim C3: applying the navigation provider replaces the bare children
placeholder by the navigation block, after which the navigation marker is
present, so the search anchor computed for every subsequently applied
provider is the whole navigation block rather than the bare placeholder; a
wrapping provider applied afterwards therefore wraps the entire navigation
block. -/
theorem navbar_anchor_transition (env : Env) (q : Provider) (IB P S : Str)
    (hq : isWrapping q = true)
    (h_nav0 : navbarExists (docOf IB P S) = false)
    (h_split0 : nextLineAfterLastImport (docOf IB P S) = IB.length)
    (h_imp0 : isInfixOfB (importStatement env .Navbar) (docOf IB P S) = false)
    (h_first0 : noOccBefore anchor
      ((IB ++ (importStatement env .Navbar ++ (nl ++ P))) ++ (anchor ++ S))
      (IB ++ (importStatement env .Navbar ++ (nl ++ P))).length = true)
    (h_split1 : nextLineAfterLastImport (doc1NavOf env IB P S)
      = (IB ++ (importStatement env .Navbar ++ nl)).length)
    (h_impq : isInfixOfB (importStatement env q) (doc1NavOf env IB P S) = false)
    (h_first1 : noOccBefore navBlock
      ((IB ++ (importStatement env .Navbar ++ (nl ++ (importStatement env q ++ (nl ++ P))))) ++
        (navBlock ++ S))
      (IB ++ (importStatement env .Navbar ++
        (nl ++ (importStatement env q ++ (nl ++ P))))).length = true) :
    addContextProviderToLayout env .Navbar (docOf IB P S) = some (doc1NavOf env IB P S)
    ∧ navbarExists (doc1NavOf env IB P S) = true
    ∧ searchValue (doc1NavOf env IB P S) = navBlock
    ∧ rootChildrenText (doc1NavOf env IB P S) = navBlock
    ∧ addContextProviderToLayout env q (doc1NavOf env IB P S) = some (doc2NavOf env q IB P S)
    ∧ replacementText q navBlock = nl ++ (wrapOpen q ++ (navBlock ++ (wrapClose q ++ nl))) := by
  have hnavb : navbarExists (doc1NavOf env IB P S) = true := by
    show isInfixOfB (strL "<Navbar />") _ = true
    rw [doc1NavOf]
    apply isInfixOfB_append_right
    apply isInfixOfB_append_right
    apply isInfixOfB_append_right
    apply isInfixOfB_append_right
    apply isInfixOfB_append_left
    decide
  refine ⟨?_, hnavb, ?_, ?_, ?_, replacementText_wrap q hq navBlock⟩
  · have hsv0 : searchValue (docOf IB P S) = anchor := by simp [searchValue, h_nav0]
    have hrct0 : rootChildrenText (docOf IB P S) = anchor := by
      simp [rootChildrenText, h_nav0]
    have hbi0 : beforeImport (docOf IB P S) = IB := by
      rw [beforeImport, h_split0, docOf]
      exact List.take_left ..
    have hai0 : afterImport (docOf IB P S) = P ++ (anchor ++ S) := by
      rw [afterImport, h_split0, docOf]
      exact List.drop_left ..
    rw [addContextProviderToLayout, if_neg (by simp [h_imp0])]
    congr 1
    rw [hsv0, hrct0, hbi0, hai0]
    have e : IB ++ (importStatement env .Navbar ++ (nl ++ (P ++ (anchor ++ S))))
        = (IB ++ (importStatement env .Navbar ++ (nl ++ P))) ++ (anchor ++ S) := by
      simp [List.append_assoc]
    rw [e, replaceFirstL_at _ _ _ _ h_first0]
    simp [doc1NavOf, replacementText, List.append_assoc]
  · simp [searchValue, hnavb]
  · simp [rootChildrenText, hnavb]
  · rw [addContextProviderToLayout, if_neg (by simp [h_impq])]
    congr 1
    have hsv1 : searchValue (doc1NavOf env IB P S) = navBlock := by
      simp [searchValue, hnavb]
    have hrct1 : rootChildrenText (doc1NavOf env IB P S) = navBlock := by
      simp [rootChildrenText, hnavb]
    have e1 : doc1NavOf env IB P S
        = (IB ++ (importStatement env .Navbar ++ nl)) ++ (P ++ (navBlock ++ S)) := by
      simp [doc1NavOf, List.append_assoc]
    have hbi1 : beforeImport (doc1NavOf env IB P S)
        = IB ++ (importStatement env .Navbar ++ nl) := by
      rw [beforeImport, h_split1, e1]
      exact List.take_left ..
    have hai1 : afterImport (doc1NavOf env IB P S) = P ++ (navBlock ++ S) := by
      rw [afterImport, h_split1, e1]
      exact List.drop_left ..
    rw [hsv1, hrct1, hbi1, hai1]
    have e2 : (IB ++ (importStatement env .Navbar ++ nl)) ++
          (importStatement env q ++ (nl ++ (P ++ (navBlock ++ S))))
        = (IB ++ (importStatement env .Navbar ++
            (nl ++ (importStatement env q ++ (nl ++ P))))) ++ (navBlock ++ S) := by
      simp [List.append_assoc]
    rw [e2, replaceFirstL_at _ _ _ _ h_first1]
    simp [doc2NavOf, List.append_assoc]

set_option maxRecDepth 40000 in
/-- Witness for C3 at a concrete document, with the Clerk wrapper applied
after the navigation provider. -/
theorem navbar_anchor_transition_witness :
    isWrapping Provider.ClerkProvider = true
    ∧ navbarExists (docOf c2IB c2P c2S) = false
    ∧ nextLineAfterLastImport (docOf c2IB c2P c2S) = c2IB.length
    ∧ isInfixOfB (importStatement env0 .Navbar) (docOf c2IB c2P c2S) = false
    ∧ noOccBefore anchor
        ((c2IB ++ (importStatement env0 .Navbar ++ (nl ++ c2P))) ++ (anchor ++ c2S))
        (c2IB ++ (importStatement env0 .Navbar ++ (nl ++ c2P))).length = true
    ∧ nextLineAfterLastImport (doc1NavOf env0 c2IB c2P c2S)
        = (c2IB ++ (importStatement env0 .Navbar ++ nl)).length
    ∧ isInfixOfB (importStatement env0 .ClerkProvider) (doc1NavOf env0 c2IB c2P c2S) = false
    ∧ noOccBefore navBlock
        ((c2IB ++ (importStatement env0 .Navbar ++ (nl ++
            (importStatement env0 .ClerkProvider ++ (nl ++ c2P))))) ++ (navBlock ++ c2S))
        (c2IB ++ (importStatement env0 .Navbar ++ (nl ++
          (importStatement env0 .ClerkProvider ++ (nl ++ c2P))))).length = true
    ∧ (addContextProviderToLayout env0 .Navbar (docOf c2IB c2P c2S)
          = some (doc1NavOf env0 c2IB c2P c2S)
        ∧ navbarExists (doc1NavOf env0 c2IB c2P c2S) = true
        ∧ searchValue (doc1NavOf env0 c2IB c2P c2S) = navBlock
        ∧ rootChildrenText (doc1NavOf env0 c2IB c2P c2S) = navBlock
        ∧ addContextProviderToLayout env0 .ClerkProvider (doc1NavOf env0 c2IB c2P c2S)
          = some (doc2NavOf env0 .ClerkProvider c2IB c2P c2S)
        ∧ replacementText .ClerkProvider navBlock
          = nl ++ (wrapOpen .ClerkProvider ++ (navBlock ++ (wrapClose .ClerkProvider ++ nl)))) :=
  ⟨by decide, by decide, by decide, by decide, by decide, by decide, by decide, by decide,
    navbar_anchor_transition env0 .ClerkProvider c2IB c2P c2S
      (by decide) (by decide) (by decide) (by decide) (by decide) (by decide) (by decide)
      (by decide)⟩

/-!
Install list aggregator (utils.ts lines 151-196).

`installList` is a module-scoped pair of collections mutated by
`addToInstallList`; it is modelled as an explicit state threaded through the
calls.  `installPackagesFromList` returns `none` for the early return on
line 167 (the external installer is not invoked) and `some (regular, dev)`
for the call `installPackages(formattedInstallList, ...)` on line 185, where
the pair carries the two space-joined argument strings.
`installShadcnComponentList` likewise returns `none` for the early return on
line 192 and `some components` for the call on line 194.
-/

/-- One whitespace class member stripped by `String.prototype.trim`. -/
def isJsWhitespace (c : Char) : Bool :=
  c = ' ' || c = '\t' || c = '\n' || c = '\r' || c = '\x0b' || c = '\x0c'

/-- Model of `String.prototype.trim`. -/
def jsTrim (s : Str) : Str :=
  ((s.dropWhile isJsWhitespace).reverse.dropWhile isJsWhitespace).reverse

/-- Model of `Array.prototype.join(" ")`. -/
def joinSpace (l : List Str) : Str := List.intercalate (strL " ") l

/-- The two pending collections of the module-scoped `installList`. -/
structure InstallList where
  regular : List Str
  dev : List Str
deriving DecidableEq

/-- The initial state of the module-scoped `installList` (lines 151-154). -/
def emptyInstallList : InstallList := { regular := [], dev := [] }

/-- Lines 156-162: `push(...)` appends both collections. -/
def addToInstallList (st pkgs : InstallList) : InstallList :=
  { regular := st.regular ++ pkgs.regular, dev := st.dev ++ pkgs.dev }

/-- Model of `[...new Set(list)]`: a JavaScript `Set` iterates in insertion
order, so the deduplicated sequence keeps the first occurrence of each
element. -/
def dedupFirstAux (seen : List Str) : List Str → List Str
  | [] => []
  | x :: xs => if x ∈ seen then dedupFirstAux seen xs else x :: dedupFirstAux (x :: seen) xs

/-- Line 169-172: `[...new Set(installList.regular)]`. -/
def dedupFirst (l : List Str) : List Str := dedupFirstAux [] l

/-- Lines 164-186. -/
def installPackagesFromList (st : InstallList) : Option (Str × Str) :=
  if st.dev.length = 0 ∧ st.regular.length = 0 then none
  else
    some
      (jsTrim (joinSpace ((dedupFirst st.regular).map jsTrim)),
        jsTrim (joinSpace ((dedupFirst st.dev).map jsTrim)))

/-- Lines 190-196. -/
def installShadcnComponentList (components : List Str) : Option (List Str) :=
  if components.length = 0 then none else some components

/-- The aggregator state after a sequence of `addToInstallList` calls. -/
def finalInstallList (calls : List InstallList) : InstallList :=
  calls.foldl addToInstallList emptyInstallList

theorem dedupFirstAux_count (x : Str) :
    ∀ (l seen : List Str),
      (dedupFirstAux seen l).count x = if x ∈ l ∧ x ∉ seen then 1 else 0 := by
  intro l
  induction l with
  | nil => intro seen; simp [dedupFirstAux]
  | cons c t ih =>
    intro seen
    by_cases hc : c ∈ seen
    · rw [dedupFirstAux, if_pos hc, ih]
      by_cases hx : x = c
      · subst hx; simp [hc]
      · simp [List.mem_cons, hx]
    · rw [dedupFirstAux, if_neg hc, List.count_cons, ih]
      by_cases hx : x = c
      · subst hx; simp [hc, List.mem_cons]
      · have hcx : (c == x) = false := by
          simp [hx]
          exact fun h => absurd h.symm hx
        simp [List.mem_cons, hx, hcx]

theorem dedupFirstAux_sublist : ∀ (l seen : List Str), List.Sublist (dedupFirstAux seen l) l := by
  intro l
  induction l with
  | nil => intro seen; simp [dedupFirstAux]
  | cons c t ih =>
    intro seen
    rw [dedupFirstAux]
    by_cases hc : c ∈ seen
    · rw [if_pos hc]
      exact (ih seen).cons c
    · rw [if_neg hc]
      exact (ih (c :: seen)).cons₂ c

theorem dedupFirst_count (l : List Str) (x : Str) :
    (dedupFirst l).count x = if x ∈ l then 1 else 0 := by
  have h := dedupFirstAux_count x l []
  simpa [dedupFirst] using h

theorem dedupFirst_sublist (l : List Str) : List.Sublist (dedupFirst l) l := dedupFirstAux_sublist l []

/-- Claim C6: for any multiset of names pushed across a sequence of
`addToInstallList` calls, the flushed deduplicated sequence contains each
distinct name exactly once per collection (count one for members, zero for
non-members, independent of ordering and duplication count), is a
subsequence of the pushed sequence (first-seen order), and the flush sends
exactly the per-entry-trimmed space-joined rendering of those deduplicated
sequences to the installer. -/
theorem installPackagesFromList_dedup_exactly_once (calls : List InstallList) (x : Str) :
    ((dedupFirst (finalInstallList calls).regular).count x
        = if x ∈ (finalInstallList calls).regular then 1 else 0)
    ∧ ((dedupFirst (finalInstallList calls).dev).count x
        = if x ∈ (finalInstallList calls).dev then 1 else 0)
    ∧ List.Sublist (dedupFirst (finalInstallList calls).regular) (finalInstallList calls).regular
    ∧ List.Sublist (dedupFirst (finalInstallList calls).dev) (finalInstallList calls).dev
    ∧ installPackagesFromList (finalInstallList calls)
        = (if (finalInstallList calls).dev.length = 0 ∧ (finalInstallList calls).regular.length = 0
            then none
            else some
              (jsTrim (joinSpace ((dedupFirst (finalInstallList calls).regular).map jsTrim)),
                jsTrim (joinSpace ((dedupFirst (finalInstallList calls).dev).map jsTrim)))) :=
  ⟨dedupFirst_count _ x, dedupFirst_count _ x, dedupFirst_sublist _, dedupFirst_sublist _, rfl⟩

/-- Claim C7 counterexample: pushing the single whitespace name makes the
backing collection non-empty, so the emptiness guard on line 167 (which
tests collection lengths before any trimming or joining) does not fire; the
flush delegates to the installer even though both resulting trimmed joined
argument strings are empty.  Delegation is therefore not conditioned on a
resulting string being non-empty. -/
theorem installPackagesFromList_whitespace_delegates :
    installPackagesFromList { regular := [strL " "], dev := [] } = some ([], []) := by
  decide

/-- Claim C7 amended: the flush delegates if and only if at least one
backing collection is non-empty (the guard precedes trimming and joining, so
entries that trim to nothing still trigger an invocation, with empty
argument strings); flushing either aggregator over empty collections
performs zero external install invocations. -/
theorem flush_noop_iff_empty_collections (st : InstallList) (components : List Str) :
    (installPackagesFromList st = none ↔ st.regular = [] ∧ st.dev = [])
    ∧ (installShadcnComponentList components = none ↔ components = []) := by
  constructor
  · by_cases h : st.dev.length = 0 ∧ st.regular.length = 0
    · rw [installPackagesFromList, if_pos h]
      simp only [List.length_eq_zero] at h
      simp [h.1, h.2]
    · rw [installPackagesFromList, if_neg h]
      simp only [List.length_eq_zero] at h
      simp only [reduceCtorEq, false_iff]
      intro hx
      exact h ⟨hx.2, hx.1⟩
  · by_cases h : components.length = 0
    · rw [installShadcnComponentList, if_pos h]
      simp only [List.length_eq_zero] at h
      simp [h]
    · rw [installShadcnComponentList, if_neg h]
      simp only [List.length_eq_zero] at h
      simp [h]

/-!
Summary reporter (`printNextSteps`, utils.ts lines 198-285).

The selection and provider types live in modules that are outside this
source file (`types.ts` and `auth/next-auth/utils.ts`); they are modelled
from the specification.  `chalk` styling carries no information beyond the
styled text and is modelled as the identity.  The preferred package manager
is the value `config?.preferredPackageManager ?? "npm"` resolved from the
external configuration reader and is passed in as `ppm`.
-/

/-- Modelled from the spec: the ORM choices of the selections record. -/
inductive OrmChoice where
  | drizzle
  | prisma
deriving DecidableEq

/-- Modelled from the spec: the auth choices of the selections record. -/
inductive AuthChoice where
  | nextauth
  | clerk
  | lucia
  | kinde
deriving DecidableEq

/-- Modelled from the spec: the misc add-on choices. -/
inductive MiscPackage where
  | trpc
  | stripe
  | resend
deriving DecidableEq

/-- Modelled from the spec: the component library choice. -/
inductive ComponentLibChoice where
  | shadcnUi
deriving DecidableEq

/-- Modelled from the spec: the database engine selection consulted by the
migrate-or-push switch on line 256. -/
inductive DbEngine where
  | pg
  | mysql
  | sqlite
deriving DecidableEq

/-- Modelled from the spec: the closed set of external auth providers keyed
by the `AuthProviders` record of `auth/next-auth/utils`. -/
inductive AuthProviderKey where
  | discord
  | google
  | github
  | apple
deriving DecidableEq

/-- The string value of an auth provider key. -/
def providerSlug : AuthProviderKey → Str
  | .discord => strL "discord"
  | .google => strL "google"
  | .github => strL "github"
  | .apple => strL "apple"

/-- Modelled from the spec: the external record `AuthProviders` maps each
supported provider to its credential dashboard website (§4.4).  An absent
key (a JavaScript `undefined` property access) would be `none`; every key of
the closed set is present.  The URLs are placeholders for the real table. -/
def AuthProviders : AuthProviderKey → Option Str
  | .discord => some (strL "https://discord.com/developers/applications")
  | .google => some (strL "https://console.cloud.google.com/apis/credentials")
  | .github => some (strL "https://github.com/settings/developers")
  | .apple => some (strL "https://developer.apple.com/account")

/-- Modelled from the spec: the selections record `InitOptions` (defined in
`types.ts`, outside this source file).  Field presence follows the accesses
in `printNextSteps`; a selection that can be absent is an `Option` with
`none` for the JavaScript `undefined`. -/
structure InitOptions where
  orm : Option OrmChoice
  db : Option DbEngine
  dbProvider : Option Str
  auth : Option AuthChoice
  authProviders : List AuthProviderKey
  miscPackages : List MiscPackage
  componentLib : Option ComponentLibChoice
deriving DecidableEq

/-- `chalk.underline` styling modelled as the identity on the text. -/
def chalkUnderline (s : Str) : Str := s

/-- Lines 205-246: the conditional feature-label list, in declaration
order.  Interpolating the absent `dbProvider` renders the JavaScript text
`undefined`. -/
def packagesInstalledList (pr : InitOptions) : List Str :=
  (if pr.orm = some .drizzle then
    [chalkUnderline (strL "ORM") ++
      (strL ": Drizzle (using " ++ (pr.dbProvider.getD (strL "undefined") ++ strL ")"))]
  else []) ++
  ((if pr.orm = some .prisma then [chalkUnderline (strL "ORM") ++ strL ": Prisma"] else []) ++
  ((if pr.auth = some .nextauth then
    [chalkUnderline (strL "Authentication") ++
      (strL ": Auth.js (with " ++
        (List.intercalate (strL ", ") (pr.authProviders.map providerSlug) ++
          strL " providers)"))]
  else []) ++
  ((if pr.auth = some .clerk then
    [chalkUnderline (strL "Authentication") ++ strL ": Clerk"] else []) ++
  ((if pr.auth = some .lucia then
    [chalkUnderline (strL "Authentication") ++ strL ": Lucia"] else []) ++
  ((if pr.auth = some .kinde then
    [chalkUnderline (strL "Authentication") ++ strL ": Kinde"] else []) ++
  ((if pr.miscPackages.contains .stripe then
    [chalkUnderline (strL "Payments") ++ strL ": Stripe"] else []) ++
  ((if pr.miscPackages.contains .resend then
    [chalkUnderline (strL "Email") ++ strL ": Resend"] else []) ++
  ((if pr.miscPackages.contains .trpc then
    [chalkUnderline (strL "RPC") ++ strL ": tRPC"] else []) ++
  (if pr.componentLib = some .shadcnUi then
    [chalkUnderline (strL "Component Library") ++ strL ": ShadcnUI"] else [])))))))))

/-- Lines 248-252: JavaScript truthiness of the selection fields. -/
def wouldHaveSecrets (pr : InitOptions) : Bool :=
  pr.orm.isSome || pr.auth.isSome ||
    pr.miscPackages.contains .resend || pr.miscPackages.contains .stripe

/-- Lines 254-259: the four migration steps; the second one consults the
selection field `db` (`promptResponses.db === "pg"`), where an absent `db`
compares unequal. -/
def dbMigration (ppm : Str) (pr : InitOptions) : List Str :=
  [strL "Run \x27" ++ (ppm ++ strL " run db:generate\x27"),
    strL "Run \x27" ++
      (ppm ++ (strL " run db:" ++
        ((if pr.db = some .pg then strL "migrate" else strL "push") ++ strL "\x27"))),
    strL "Run \x27" ++ (ppm ++ strL " run dev\x27"),
    strL "Open localhost:3000/ in your browser"]

/-- Lines 260-264. -/
def runMigration (pr : InitOptions) : Bool :=
  pr.orm.isSome || pr.auth == some .lucia || pr.auth == some .nextauth ||
    pr.miscPackages.contains .stripe

/-- Lines 272-277: one instruction line per selected provider, reading the
website from the external `AuthProviders` record; a missing key (an
`undefined` property access in JavaScript) propagates as `none`.  The guard
on line 273 is subsumed by the empty list producing `some []`. -/
def authProviderInstructions : List AuthProviderKey → Option (List Str)
  | [] => some []
  | p :: rest =>
    match AuthProviders p, authProviderInstructions rest with
    | some w, some tail =>
      some ((providerSlug p ++
        (strL " auth: create credentials at " ++
          (w ++ (strL "\n  (redirect URI: /api/auth/callback/" ++
            (providerSlug p ++ strL ")"))))) :: tail)
    | _, _ => none

/-- The three lists assembled by `printNextSteps` and handed to
`showNextSteps` for rendering. -/
structure Summary where
  packagesInstalled : List Str
  nextSteps : List Str
  notes : List Str
deriving DecidableEq

/-- Lines 198-285: the reporter builds the feature-label list, the
next-steps list (environment note when secrets are involved, the migration
block when required, then the constant closing step) and the notes list
(provider instructions then the constant issue-reporting line).  `none`
models the JavaScript TypeError that an absent `AuthProviders` key would
raise; `duration` flows only into the rendered box. -/
def printNextSteps (ppm : Str) (pr : InitOptions) (_duration : Nat) : Option Summary :=
  (authProviderInstructions pr.authProviders).map fun instructions =>
    { packagesInstalled := packagesInstalledList pr
      nextSteps :=
        (if wouldHaveSecrets pr then [strL "Add Environment Variables to your .env"] else []) ++
          ((if runMigration pr then dbMigration ppm pr else []) ++
            [strL "Build something awesome!"])
      notes := instructions ++
        [strL "If you had any problems, please open an issue on GitHub\n  (https://github.com/nicoalbanese/kirimase/issues)"] }

/-- Claim C9: the summary reporter cannot fail on well-typed input: for
every resolved package manager, selections record and duration it produces
a summary (`isSome`); in particular every provider key resolves in the
`AuthProviders` record, so the only partial operation never faults. -/
theorem printNextSteps_total (ppm : Str) (pr : InitOptions) (duration : Nat) :
    (printNextSteps ppm pr duration).isSome = true := by
  rw [printNextSteps]
  have h : ∀ l : List AuthProviderKey, (authProviderInstructions l).isSome = true := by
    intro l
    induction l with
    | nil => rfl
    | cons p rest ih =>
      have hp : (AuthProviders p).isSome = true := by cases p <;> rfl
      cases hw : AuthProviders p with
      | none => rw [hw] at hp; simp at hp
      | some w =>
        cases hr : authProviderInstructions rest with
        | none => rw [hr] at ih; simp at ih
        | some t => simp [authProviderInstructions, hw, hr]
  cases ho : authProviderInstructions pr.authProviders with
  | none =>
    have := h pr.authProviders
    rw [ho] at this
    simp at this
  | some t => rfl

/-- The selections of claim C8, exactly as listed there: `db` is not among
them, so that field is absent. -/
def c8Selections : InitOptions :=
  { orm := some .drizzle
    db := none
    dbProvider := some (strL "pg")
    auth := some .nextauth
    authProviders := [.google]
    miscPackages := [.trpc]
    componentLib := some .shadcnUi }

set_option maxRecDepth 40000 in
/-- Claim C8 counterexample: with exactly the claimed selections the
migrate-or-push switch reads the absent field `db` (line 256 compares
`promptResponses.db === "pg"`, and `dbProvider` is only echoed inside the
ORM label), so the emitted step is `db:push`; the claimed `db:migrate` step
appears nowhere in the produced next-steps list. -/
theorem printNextSteps_c8_push_not_migrate :
    (printNextSteps (strL "npm") c8Selections 4200).map Summary.nextSteps
      = some [strL "Add Environment Variables to your .env",
          strL "Run \x27npm run db:generate\x27",
          strL "Run \x27npm run db:push\x27",
          strL "Run \x27npm run dev\x27",
          strL "Open localhost:3000/ in your browser",
          strL "Build something awesome!"]
    ∧ strL "Run \x27npm run db:migrate\x27" ∉
        ((printNextSteps (strL "npm") c8Selections 4200).map Summary.nextSteps).getD [] := by
  exact ⟨by decide, by decide⟩

/-- The claimed selections extended with the database engine `pg`. -/
def c8SelectionsAmended : InitOptions := { c8Selections with db := some .pg }

set_option maxRecDepth 40000 in
/-- Claim C8 amended: the migrate-or-push switch reads the selection field
`db`, so with the engine selection `db := pg` added to the claimed
selections the summary is exactly as described: the installed-feature list
is the four labels in order, the next-steps list opens with the
environment-variable note, continues with the four migration steps using
`migrate`, and ends with the constant closing step, and the notes list is
one google instruction line followed by the constant issue-reporting
line. -/
theorem printNextSteps_c8_amended :
    printNextSteps (strL "npm") c8SelectionsAmended 4200
      = some
        { packagesInstalled :=
            [strL "ORM: Drizzle (using pg)",
              strL "Authentication: Auth.js (with google providers)",
              strL "RPC: tRPC",
              strL "Component Library: ShadcnUI"]
          nextSteps :=
            [strL "Add Environment Variables to your .env",
              strL "Run \x27npm run db:generate\x27",
              strL "Run \x27npm run db:migrate\x27",
              strL "Run \x27npm run dev\x27",
              strL "Open localhost:3000/ in your browser",
              strL "Build something awesome!"]
          notes :=
            [strL "google auth: create credentials at https://console.cloud.google.com/apis/credentials\n  (redirect URI: /api/auth/callback/google)",
              strL "If you had any problems, please open an issue on GitHub\n  (https://github.com/nicoalbanese/kirimase/issues)"] } := by
  decide
